import Mathlib

/-!
# Joke service: request handlers over a key-value store

A shallow embedding of `main.go` and `jokes.go`: the response models, the four
HTTP handlers, the environment lookup and the store-client configuration.

The libraries the handlers call are modelled by what the handlers can observe:

* `encoding/json`: `Marshal` gives the bytes of a value, `Encode` writes them
  followed by a newline;
* `net/http`: a `ResponseWriter` holds the header map, the status line once it
  has been sent, and the body written so far;
* `go-redis`: a `Client` gives the reply of the store to each command, and
  `Reply.Result` turns a reply into the Go pair `(value, err)`.
-/

namespace JokesApi

set_option linter.dupNamespace false

/-! ## Response models (`jokes.go`) -/

/-- The found-joke record: `Joke{Id, Joke}` with JSON keys `id` and `joke`. -/
structure Joke where
  Id : String
  Joke : String
deriving DecidableEq, Repr

/-- The error record: `NoJoke{Status, Error, Message}` with JSON keys `status`,
`error` and `message`. -/
structure NoJoke where
  Status : String
  Error : String
  Message : String
deriving DecidableEq, Repr

/-- The slice type `Jokes []Joke`. A Go slice is either nil (`none`) or holds a
list of elements (`some l`); the two differ when encoded. -/
abbrev Jokes := Option (List Joke)

/-- Go `append(jokes, joke)`: appending to the nil slice allocates. -/
def Jokes.append (jokes : Jokes) (joke : Joke) : Jokes :=
  some (jokes.getD [] ++ [joke])

/-- Go `len(jokes)`: the nil slice has length zero. -/
def Jokes.len (jokes : Jokes) : Nat :=
  (jokes.getD []).length

/-- The elements of the slice in order (none for the nil slice). -/
def Jokes.elems (jokes : Jokes) : List Joke :=
  jokes.getD []

/-! ## `encoding/json` -/

/-- The digits used by the `\u00XX` escapes. -/
def hex : List Char :=
  ['0', '1', '2', '3', '4', '5', '6', '7', '8', '9', 'a', 'b', 'c', 'd', 'e', 'f']

/-- Escape of one character inside a JSON string, as the encoder with HTML
escaping (its default) writes it: backslash and quote are backslash-escaped,
newline, carriage return and tab get their short form, every other control
character below 0x20 and the characters `<`, `>`, `&` become `\u00XX`, the line
separators U+2028 and U+2029 become their six-character escapes, and every
other character is copied. (From release 1.22 on the library writes backspace
and form feed in their short form as well; no statement below depends on how
these two characters are written.) -/
def escapeChar (c : Char) : String :=
  if c = '\\' then "\\\\"
  else if c = '"' then "\\\""
  else if c = '\n' then "\\n"
  else if c = '\r' then "\\r"
  else if c = '\t' then "\\t"
  else if c.toNat < 0x20 ∨ c = '<' ∨ c = '>' ∨ c = '&' then
    String.mk ['\\', 'u', '0', '0', hex.getD (c.toNat / 16) '0', hex.getD (c.toNat % 16) '0']
  else if c.toNat = 0x2028 ∨ c.toNat = 0x2029 then
    String.mk ['\\', 'u', '2', '0', '2', hex.getD (c.toNat % 16) '0']
  else String.singleton c

/-- JSON string literal of a Go string: the escaped characters between quotes.
Strings are sequences of Unicode characters here; the replacement of bytes that
are not valid UTF-8 is outside the model. -/
def quote (s : String) : String :=
  "\"" ++ String.join (s.toList.map escapeChar) ++ "\""

/-- Bytes of `json.Marshal` for a `Joke`: the fields in declaration order under
their tag names. -/
def Joke.Marshal (j : JokesApi.Joke) : String :=
  "\x7b\"id\":" ++ quote j.Id ++ ",\"joke\":" ++ quote j.Joke ++ "\x7d"

/-- Bytes of `json.Marshal` for a `NoJoke`. -/
def NoJoke.Marshal (n : NoJoke) : String :=
  "\x7b\"status\":" ++ quote n.Status ++ ",\"error\":" ++ quote n.Error
    ++ ",\"message\":" ++ quote n.Message ++ "\x7d"

/-- Bytes of `json.Marshal` for a `Jokes` slice: the nil slice encodes as
`null`, any other slice as the bracketed, comma-separated elements. -/
def Jokes.Marshal : Jokes → String
  | none => "null"
  | some l => "[" ++ String.intercalate "," (l.map Joke.Marshal) ++ "]"

/-- A value handed to the JSON encoder by one of the handlers. -/
inductive Payload where
  | joke (j : Joke)
  | noJoke (n : NoJoke)
  | jokes (js : Jokes)
deriving DecidableEq, Repr

/-- Bytes of `json.Marshal` for a payload. -/
def Payload.Marshal : Payload → String
  | .joke j => j.Marshal
  | .noJoke n => n.Marshal
  | .jokes js => Jokes.Marshal js

/-! ## `net/http` response writer -/

/-- The response under construction: the header map, the status code once the
status line has been sent (`none` before that), and the body bytes written. -/
structure ResponseWriter where
  header : List (String × String)
  status : Option Nat
  body : String
deriving DecidableEq, Repr

/-- A response writer as the server hands it to a handler. -/
def ResponseWriter.fresh : ResponseWriter :=
  { header := [], status := none, body := "" }

/-- Code of `http.StatusOK`. -/
def StatusOK : Nat := 200

/-- Go `w.Header().Set(key, value)`: replaces the values under the key. -/
def ResponseWriter.Set (w : ResponseWriter) (key value : String) : ResponseWriter :=
  { w with header := (key, value) :: w.header.filter (fun kv => kv.1 ≠ key) }

/-- Go `w.Header().Get(key)`: the value under the key, or the empty string. -/
def ResponseWriter.Get (w : ResponseWriter) (key : String) : String :=
  (w.header.lookup key).getD ""

/-- Go `w.Write(bytes)`: when no status line has been sent yet the first write
sends `200 OK`, then the bytes are appended to the body. Writes to the
connection are taken to succeed. -/
def ResponseWriter.Write (w : ResponseWriter) (bytes : String) : ResponseWriter :=
  { w with status := some (w.status.getD StatusOK), body := w.body ++ bytes }

/-! ## `go-redis` client -/

/-- A Go `error` returned by a store call: the sentinel `redis.Nil` (the key
does not exist) or any other error (connection failure, wrong type, ...). -/
inductive GoError where
  | Nil
  | other (msg : String)
deriving DecidableEq, Repr

/-- Reply of the store to one command: a value, the nil reply, or a failure. -/
inductive Reply (α : Type) where
  | ok (v : α)
  | null
  | failed (msg : String)
deriving DecidableEq, Repr

/-- Go `cmd.Result()`: the pair `(value, err)`. The value is the zero value
whenever the error is not nil. -/
def Reply.Result {α : Type} (zero : α) : Reply α → α × Option GoError
  | .ok v => (v, none)
  | .null => (zero, some GoError.Nil)
  | .failed msg => (zero, some (GoError.other msg))

/-- The store as a handler sees it during one request: the reply to `GET key`,
to `KEYS *` and to `RANDOMKEY`. The store state is fixed during the request. -/
structure Client where
  Get : String → Reply String
  Keys : Reply (List String)
  RandomKey : Reply String

/-- A store command issued by a handler. -/
inductive Command where
  | GET (key : String)
  | KEYS (pattern : String)
  | RANDOMKEY
deriving DecidableEq, Repr

/-! ## Handler executions -/

/-- How a handler invocation ends: it returns, it panics with a value, or the
process exits through `log.Fatal`. -/
inductive Outcome where
  | returned
  | panicked (e : GoError)
  | exited (e : GoError)
deriving DecidableEq, Repr

/-- State of a handler invocation: the response writer `w` of the handler, the
store commands issued so far with the error each returned, the values handed to
the JSON encoder so far, and how the invocation ended (`returned` as long as no
panic or exit has happened). -/
structure Exec where
  w : ResponseWriter
  calls : List (Command × Option GoError)
  encoded : List Payload
  outcome : Outcome
deriving DecidableEq, Repr

/-- An invocation that has not done anything yet. -/
def Exec.start : Exec :=
  { w := ResponseWriter.fresh, calls := [], encoded := [], outcome := Outcome.returned }

/-- Go `client.Get(key).Result()`. -/
def Exec.Get (x : Exec) (client : Client) (key : String) : (String × Option GoError) × Exec :=
  let res := (client.Get key).Result ""
  (res, { x with calls := x.calls ++ [(Command.GET key, res.2)] })

/-- Go `client.Do("KEYS", pattern).Result()`; the handlers only pass `*`. The
reply is an array of key names. -/
def Exec.Do_KEYS (x : Exec) (client : Client) (pattern : String) :
    (List String × Option GoError) × Exec :=
  let res := client.Keys.Result []
  (res, { x with calls := x.calls ++ [(Command.KEYS pattern, res.2)] })

/-- Go `client.RandomKey().Result()`. -/
def Exec.RandomKey (x : Exec) (client : Client) : (String × Option GoError) × Exec :=
  let res := client.RandomKey.Result ""
  (res, { x with calls := x.calls ++ [(Command.RANDOMKEY, res.2)] })

/-- Go `w.Header().Set(key, value)` inside an invocation. -/
def Exec.Set (x : Exec) (key value : String) : Exec :=
  { x with w := x.w.Set key value }

/-- Go `json.NewEncoder(w).Encode(v)`: writes the encoding of `v` followed by a
newline. The write succeeds, so the returned error is nil and the
`panic(err)` guarding it in the handlers is not reached. -/
def Exec.Encode (x : Exec) (v : Payload) : Exec :=
  { x with w := x.w.Write (v.Marshal ++ "\n"), encoded := x.encoded ++ [v] }

/-- Go `panic(e)`: the invocation ends here. -/
def Exec.panic (x : Exec) (e : GoError) : Exec :=
  { x with outcome := Outcome.panicked e }

/-- The request as the handlers read it: the route variables of `mux.Vars`. -/
structure Request where
  vars : List (String × String)
deriving DecidableEq, Repr

/-- Go `mux.Vars(r)[name]`: a missing key reads as the empty string. -/
def Vars (r : Request) (name : String) : String :=
  (r.vars.lookup name).getD ""

/-! ## Handlers (`main.go`) -/

/-- Handler `getJokeByID(client)`, run on the invocation state `x` that holds the
response writer. -/
def getJokeByID (client : Client) (r : Request) (x : Exec) : Exec :=
  let vars := Vars r
  let ((reply, err), x) := x.Get client (vars "id")
  let x := x.Set "Content-Type" "application/json"
  if err = some GoError.Nil then
    let resp : NoJoke := ⟨"500", "Internal Server Error", "Joke not availale"⟩
    x.Encode (Payload.noJoke resp)
  else
    let resp : Joke := ⟨vars "id", reply⟩
    x.Encode (Payload.joke resp)

/-- Go `HandleError(err)`: panics with `err` when it is not nil. The result is
the panic value, `none` when the call returns. -/
def HandleError (err : Option GoError) : Option GoError :=
  match err with
  | some e => some e
  | none => none

/-- The `for _, k := range keys` loop of `getAllJokes`: one `GET` per key, each
followed by `HandleError`, the record appended to `jokes`. The result is the
panic value when a fetch fails, the accumulated slice otherwise. -/
def rangeKeys (client : Client) : List String → Jokes → Exec → Except GoError Jokes × Exec
  | [], jokes, x => (Except.ok jokes, x)
  | k :: rest, jokes, x =>
    let ((reply, err), x) := x.Get client k
    match HandleError err with
    | some e => (Except.error e, x)
    | none =>
      let joke : Joke := ⟨k, reply⟩
      rangeKeys client rest (Jokes.append jokes joke) x

/-- Handler `getAllJokes(client)`. -/
def getAllJokes (client : Client) (_r : Request) (x : Exec) : Exec :=
  let x := x.Set "Content-Type" "application/json"
  let ((keys, err), x) := x.Do_KEYS client "*"
  let jokes : Jokes := none
  if err ≠ none then
    match HandleError err with
    | some e => x.panic e
    | none => x
  else
    match rangeKeys client keys jokes x with
    | (Except.error e, x) => x.panic e
    | (Except.ok jokes, x) => x.Encode (Payload.jokes jokes)

/-- Handler `getRandJoke(client)`. -/
def getRandJoke (client : Client) (_r : Request) (x : Exec) : Exec :=
  let x := x.Set "Content-Type" "application/json"
  let ((keys, err), x) := x.RandomKey client
  match HandleError err with
  | some e => x.panic e
  | none =>
    let ((reply, err), x) := x.Get client keys
    if err ≠ none then
      match HandleError err with
      | some e => x.panic e
      | none => x
    else
      let joke : Joke := ⟨keys, reply⟩
      x.Encode (Payload.joke joke)

/-- Handler `indexHandler`. `ParseFiles` stands for the template files on disk:
for a file name it gives the parse error, or the bytes the parsed template
renders to when executed with the empty string as data. A parse error ends the
process through `log.Fatal`; no store command is issued on either path. -/
def indexHandler (ParseFiles : String → Except GoError String) (_r : Request) (x : Exec) : Exec :=
  match ParseFiles "index.html" with
  | Except.error err => { x with outcome := Outcome.exited err }
  | Except.ok tmpl =>
    let x := x.Set "Content-Type" "text/html"
    { x with w := x.w.Write tmpl }

/-! ## Configuration (`main.go`) -/

/-- The process environment: the value of each variable, `none` when unset. -/
abbrev Environ := String → Option String

/-- Go `os.Getenv(key)`: the value, or the empty string when unset. -/
def Getenv (env : Environ) (key : String) : String :=
  (env key).getD ""

/-- Wrapper `getEnv(key, defaultValue)`. -/
def getEnv (env : Environ) (key defaultValue : String) : String :=
  let value := Getenv env key
  if value = "" then defaultValue else value

/-- The fields of `redis.Options` that `main` sets. -/
structure Options where
  Addr : String
  Password : String
  DB : Nat
deriving DecidableEq, Repr

/-- What `main` has done once the connection check is over: the options the
store client was created with and, when the ping failed, the error passed to
`log.Fatal`. -/
structure Startup where
  options : Options
  fatal : Option GoError
deriving DecidableEq, Repr

/-- Start of `main`: the connection parameters are read from the environment,
the client is created, and the connection is checked with one `PING`. -/
def main (env : Environ) (Ping : Options → Option GoError) : Startup :=
  let host := getEnv env "REDIS_HOST" "localhost"
  let port := getEnv env "REDIS_PORT" "6379"
  let password := getEnv env "REDIS_PASSWORD" ""
  let options : Options := { Addr := host ++ ":" ++ port, Password := password, DB := 0 }
  { options := options, fatal := Ping options }

/-! ## The store behind the client -/

/-- Content of the key-value store as a list of entries with string values; when
a key occurs more than once its first entry is the one in effect. -/
structure Store where
  entries : List (String × String)
deriving DecidableEq, Repr

/-- The value stored under a key, if any. -/
def Store.value (s : Store) (key : String) : Option String :=
  s.entries.lookup key

/-- The distinct keys of the store. -/
def Store.keys (s : Store) : List String :=
  (s.entries.map Prod.fst).dedup

/-- A client with a working connection to the store `s`: `GET` replies with the
stored value or with nil, `KEYS *` with every key once in some order, and
`RANDOMKEY` with one of the keys, or with nil when there is none. -/
def Client.Serves (client : Client) (s : Store) : Prop :=
  (∀ key, client.Get key =
      match s.value key with
      | some v => Reply.ok v
      | none => Reply.null) ∧
  (∃ ks, client.Keys = Reply.ok ks ∧ ks.Perm s.keys) ∧
  (s.keys = [] → client.RandomKey = Reply.null) ∧
  (s.keys ≠ [] → ∃ k, k ∈ s.keys ∧ client.RandomKey = Reply.ok k)

/-- The client of a working connection to `s` that lists the keys in the order
of the store and picks the key at position `pick` (modulo the number of keys)
as the random one. -/
def Store.client (s : Store) (pick : Nat) : Client :=
  { Get := fun key =>
      match s.value key with
      | some v => Reply.ok v
      | none => Reply.null
    Keys := Reply.ok s.keys
    RandomKey :=
      match s.keys.get? (pick % s.keys.length) with
      | some k => Reply.ok k
      | none => Reply.null }

/-- A client whose connection is down: every command fails with `msg`. -/
def Client.down (msg : String) : Client :=
  { Get := fun _ => Reply.failed msg
    Keys := Reply.failed msg
    RandomKey := Reply.failed msg }

/-- Body written for the fixed error record. -/
def noJokeBody : String :=
  "\x7b\"status\":\"500\",\"error\":\"Internal Server Error\",\"message\":\"Joke not availale\"\x7d\n"

/-- A store with two jokes, used for the concrete instances below. -/
def twoJokes : Store :=
  { entries := [("1", "knock <knock>"), ("2", "b")] }

/-- The replies of a store in which key `1` holds a string and key `2` holds a
list: `KEYS *` lists both, and `GET 2` fails because of the type of the value. -/
def listUnderKey : Client :=
  { Get := fun key =>
      if key = "1" then Reply.ok "knock <knock>"
      else if key = "2" then Reply.failed "WRONGTYPE"
      else Reply.null
    Keys := Reply.ok ["1", "2"]
    RandomKey := Reply.ok "2" }

/-- An invocation gives no partial result: a store call that returned an error
made the handler panic with that error and nothing was written or encoded, and
a written body means that every store call of the invocation returned no
error. -/
def Exec.NoPartialResult (x : Exec) : Prop :=
  (∀ cmd e, (cmd, some e) ∈ x.calls →
    x.outcome = Outcome.panicked e ∧ x.w.body = "" ∧ x.w.status = none ∧ x.encoded = []) ∧
  (x.w.body ≠ "" → ∀ c ∈ x.calls, c.2 = none)

/-! ## Vocabulary of the statements -/

/-- The error `client.Get(key).Result()` returns, `none` for nil. -/
def Client.getErr (client : Client) (key : String) : Option GoError :=
  ((client.Get key).Result "").2

/-- The error `client.Do("KEYS", "*").Result()` returns. -/
def Client.keysErr (client : Client) : Option GoError :=
  (client.Keys.Result []).2

/-- The error `client.RandomKey().Result()` returns. -/
def Client.randErr (client : Client) : Option GoError :=
  (client.RandomKey.Result "").2

/-- The record the loop builds for a key: the key and the value
`client.Get(key).Result()` returns. -/
def Client.fetched (client : Client) (key : String) : Joke :=
  ⟨key, ((client.Get key).Result "").1⟩

/-- The slice the loop has built after the keys `ks`, starting from `jokes`. -/
def Client.collect (client : Client) (ks : List String) (jokes : Jokes) : Jokes :=
  ks.foldl (fun js k => Jokes.append js (client.fetched k)) jokes

/-- The log entries of fetches that returned no error. -/
def fetchLog (ks : List String) : List (Command × Option GoError) :=
  ks.map (fun k => (Command.GET k, none))

/-- The response writer after `Content-Type: application/json` has been set and
nothing has been written. -/
def jsonWriter : ResponseWriter :=
  { header := [("Content-Type", "application/json")], status := none, body := "" }

/-! ## The key loop of list-all -/

theorem getErr_of_ok {client : Client} {k v : String} (h : client.Get k = Reply.ok v) :
    client.getErr k = none := by
  simp [Client.getErr, h, Reply.Result]

theorem fetched_of_ok {client : Client} {k v : String} (h : client.Get k = Reply.ok v) :
    client.fetched k = ⟨k, v⟩ := by
  simp [Client.fetched, h, Reply.Result]

theorem get_ok_of_getErr {client : Client} {k : String} (h : client.getErr k = none) :
    ∃ v, client.Get k = Reply.ok v := by
  unfold Client.getErr at h
  cases hg : client.Get k with
  | ok v => exact ⟨v, rfl⟩
  | null => simp [hg, Reply.Result] at h
  | failed msg => simp [hg, Reply.Result] at h

theorem collect_elems (client : Client) (ks : List String) (jokes : Jokes) :
    Jokes.elems (client.collect ks jokes) = Jokes.elems jokes ++ ks.map client.fetched := by
  induction ks generalizing jokes with
  | nil => simp [Client.collect]
  | cons k rest ih =>
    have := ih (Jokes.append jokes (client.fetched k))
    simp only [Client.collect, List.foldl_cons] at this ⊢
    rw [this]
    simp [Jokes.append, Jokes.elems]

/-- The loop runs through all keys when every fetch returns no error. -/
theorem rangeKeys_ok (client : Client) (ks : List String) (jokes : Jokes) (x : Exec)
    (hok : ∀ k ∈ ks, client.getErr k = none) :
    rangeKeys client ks jokes x
      = (Except.ok (client.collect ks jokes), { x with calls := x.calls ++ fetchLog ks }) := by
  induction ks generalizing jokes x with
  | nil => simp [rangeKeys, Client.collect, fetchLog]
  | cons k rest ih =>
    have hk : client.getErr k = none := hok k (List.mem_cons_self _ _)
    have hrest : ∀ k2 ∈ rest, client.getErr k2 = none :=
      fun k2 h2 => hok k2 (List.mem_cons_of_mem _ h2)
    unfold Client.getErr at hk
    simp only [rangeKeys, Exec.Get, hk, HandleError]
    rw [ih _ _ hrest]
    simp [Client.collect, Client.fetched, fetchLog]

/-- The loop stops at the first fetch that returns an error. -/
theorem rangeKeys_error (client : Client) (pre : List String) (k : String) (post : List String)
    (e : GoError) (jokes : Jokes) (x : Exec)
    (hpre : ∀ k2 ∈ pre, client.getErr k2 = none) (hk : client.getErr k = some e) :
    rangeKeys client (pre ++ k :: post) jokes x
      = (Except.error e,
          { x with calls := x.calls ++ fetchLog pre ++ [(Command.GET k, some e)] }) := by
  induction pre generalizing jokes x with
  | nil =>
    unfold Client.getErr at hk
    simp [rangeKeys, Exec.Get, hk, HandleError, fetchLog]
  | cons a t ih =>
    have ha : client.getErr a = none := hpre a (List.mem_cons_self _ _)
    have ht : ∀ k2 ∈ t, client.getErr k2 = none :=
      fun k2 h2 => hpre k2 (List.mem_cons_of_mem _ h2)
    unfold Client.getErr at ha
    simp only [List.cons_append, rangeKeys, Exec.Get, ha, HandleError, List.append_eq]
    rw [ih _ _ ht]
    simp [fetchLog]

/-- Either every key fetches without error, or there is a first failing key. -/
theorem first_failure (client : Client) (ks : List String) :
    (∀ k ∈ ks, client.getErr k = none) ∨
    ∃ pre k post e, ks = pre ++ k :: post ∧
      (∀ k2 ∈ pre, client.getErr k2 = none) ∧ client.getErr k = some e := by
  induction ks with
  | nil => left; simp
  | cons a t ih =>
    cases ha : client.getErr a with
    | some e => right; exact ⟨[], a, t, e, rfl, by simp, ha⟩
    | none =>
      rcases ih with hall | ⟨pre, k, post, e, hsplit, hpre, hk⟩
      · left
        intro k hk
        rcases List.mem_cons.mp hk with rfl | hk
        · exact ha
        · exact hall k hk
      · right
        refine ⟨a :: pre, k, post, e, by simp [hsplit], ?_, hk⟩
        intro k2 hk2
        rcases List.mem_cons.mp hk2 with rfl | hk2
        · exact ha
        · exact hpre k2 hk2

/-! ## The three ways list-all and random can run -/

theorem keys_cases (client : Client) :
    (∃ ks, client.Keys = Reply.ok ks) ∨ ∃ e, client.keysErr = some e := by
  unfold Client.keysErr
  cases client.Keys with
  | ok ks => left; exact ⟨ks, rfl⟩
  | null => right; exact ⟨GoError.Nil, rfl⟩
  | failed msg => right; exact ⟨GoError.other msg, rfl⟩

theorem rand_cases (client : Client) :
    (∃ k, client.RandomKey = Reply.ok k) ∨ ∃ e, client.randErr = some e := by
  unfold Client.randErr
  cases client.RandomKey with
  | ok k => left; exact ⟨k, rfl⟩
  | null => right; exact ⟨GoError.Nil, rfl⟩
  | failed msg => right; exact ⟨GoError.other msg, rfl⟩

/-- List-all when the key listing fails: panic before any fetch or write. -/
theorem getAllJokes_keys_error (client : Client) (r : Request) (e : GoError)
    (h : client.keysErr = some e) :
    getAllJokes client r Exec.start
      = { w := jsonWriter, calls := [(Command.KEYS "*", some e)], encoded := [],
          outcome := Outcome.panicked e } := by
  unfold Client.keysErr at h
  simp [getAllJokes, Exec.Do_KEYS, Exec.Set, Exec.start, h, HandleError, Exec.panic,
    ResponseWriter.Set, ResponseWriter.fresh, jsonWriter]

/-- List-all when every store call succeeds: one write of the encoded slice. -/
theorem getAllJokes_ok (client : Client) (r : Request) (ks : List String)
    (hkeys : client.Keys = Reply.ok ks) (hok : ∀ k ∈ ks, client.getErr k = none) :
    getAllJokes client r Exec.start
      = { w := jsonWriter.Write (Jokes.Marshal (client.collect ks none) ++ "\n"),
          calls := (Command.KEYS "*", none) :: fetchLog ks,
          encoded := [Payload.jokes (client.collect ks none)],
          outcome := Outcome.returned } := by
  simp only [getAllJokes, Exec.Do_KEYS, hkeys, Reply.Result, ne_eq, not_true_eq_false,
    if_false]
  rw [rangeKeys_ok client ks none _ hok]
  simp [Exec.Encode, Exec.Set, Exec.start, ResponseWriter.Set, ResponseWriter.fresh,
    jsonWriter, Payload.Marshal]

/-- List-all when a fetch fails: panic at the first failing key, before any write. -/
theorem getAllJokes_fetch_error (client : Client) (r : Request) (pre : List String)
    (k : String) (post : List String) (e : GoError)
    (hkeys : client.Keys = Reply.ok (pre ++ k :: post))
    (hpre : ∀ k2 ∈ pre, client.getErr k2 = none) (hk : client.getErr k = some e) :
    getAllJokes client r Exec.start
      = { w := jsonWriter,
          calls := (Command.KEYS "*", none) :: (fetchLog pre ++ [(Command.GET k, some e)]),
          encoded := [], outcome := Outcome.panicked e } := by
  simp only [getAllJokes, Exec.Do_KEYS, hkeys, Reply.Result, ne_eq, not_true_eq_false,
    if_false]
  rw [rangeKeys_error client pre k post e none _ hpre hk]
  simp [Exec.panic, Exec.Set, Exec.start, ResponseWriter.Set, ResponseWriter.fresh, jsonWriter]

/-- Random when the key pick fails: panic before the fetch and before any write. -/
theorem getRandJoke_pick_error (client : Client) (r : Request) (e : GoError)
    (h : client.randErr = some e) :
    getRandJoke client r Exec.start
      = { w := jsonWriter, calls := [(Command.RANDOMKEY, some e)], encoded := [],
          outcome := Outcome.panicked e } := by
  unfold Client.randErr at h
  simp [getRandJoke, Exec.RandomKey, Exec.Set, Exec.start, h, HandleError, Exec.panic,
    ResponseWriter.Set, ResponseWriter.fresh, jsonWriter]

/-- Random when the fetch of the picked key fails: panic before any write. -/
theorem getRandJoke_fetch_error (client : Client) (r : Request) (k : String) (e : GoError)
    (hpick : client.RandomKey = Reply.ok k) (hk : client.getErr k = some e) :
    getRandJoke client r Exec.start
      = { w := jsonWriter, calls := [(Command.RANDOMKEY, none), (Command.GET k, some e)],
          encoded := [], outcome := Outcome.panicked e } := by
  unfold Client.getErr at hk
  cases hg : client.Get k with
  | ok v => simp [hg, Reply.Result] at hk
  | null =>
    simp only [hg, Reply.Result, Option.some.injEq] at hk
    simp [getRandJoke, Exec.RandomKey, Exec.Get, Exec.Set, Exec.start, hpick, hg, ← hk,
      Reply.Result, HandleError, Exec.panic, ResponseWriter.Set, ResponseWriter.fresh,
      jsonWriter]
  | failed msg =>
    simp only [hg, Reply.Result, Option.some.injEq] at hk
    simp [getRandJoke, Exec.RandomKey, Exec.Get, Exec.Set, Exec.start, hpick, hg, ← hk,
      Reply.Result, HandleError, Exec.panic, ResponseWriter.Set, ResponseWriter.fresh,
      jsonWriter]

/-- Random when both store calls succeed: one write of the encoded record. -/
theorem getRandJoke_ok (client : Client) (r : Request) (k v : String)
    (hpick : client.RandomKey = Reply.ok k) (hget : client.Get k = Reply.ok v) :
    getRandJoke client r Exec.start
      = { w := jsonWriter.Write ((Joke.mk k v).Marshal ++ "\n"),
          calls := [(Command.RANDOMKEY, none), (Command.GET k, none)],
          encoded := [Payload.joke ⟨k, v⟩], outcome := Outcome.returned } := by
  simp [getRandJoke, Exec.RandomKey, Exec.Get, Exec.Set, Exec.Encode, Exec.start, hpick, hget,
    Reply.Result, HandleError, ResponseWriter.Set, ResponseWriter.fresh, jsonWriter,
    Payload.Marshal]

/-! ## Bodies and store facts -/

theorem joke_body_ne (j : Joke) : j.Marshal ++ "\n" ≠ noJokeBody := by
  intro h
  have h2 := congrArg (fun s => s.data.get? 2) h
  simp [Joke.Marshal, noJokeBody, String.data_append] at h2

theorem jokes_body_ne (js : Jokes) : Jokes.Marshal js ++ "\n" ≠ noJokeBody := by
  intro h
  have h2 := congrArg (fun s => s.data.head?) h
  cases js <;> simp [Jokes.Marshal, noJokeBody, String.data_append] at h2

theorem written_body (bytes : String) : (jsonWriter.Write bytes).body = bytes := by
  simp [ResponseWriter.Write, jsonWriter]

theorem fetchLog_no_error (ks : List String) (c : Command × Option GoError)
    (h : c ∈ fetchLog ks) : c.2 = none := by
  obtain ⟨k, _, rfl⟩ := List.mem_map.mp h
  rfl

theorem jsonWriter_body : jsonWriter.body = "" := rfl

/-- List-all gives no partial result, whatever the store replies. -/
theorem getAllJokes_noPartial (client : Client) (r : Request) :
    (getAllJokes client r Exec.start).NoPartialResult := by
  rcases keys_cases client with ⟨ks, hkeys⟩ | ⟨e, he⟩
  · rcases first_failure client ks with hall | ⟨pre, k, post, e, rfl, hpre, hk⟩
    · rw [getAllJokes_ok client r ks hkeys hall]
      refine ⟨?_, ?_⟩
      · intro cmd e hmem
        rcases List.mem_cons.mp hmem with heq | hlog
        · cases heq
        · cases fetchLog_no_error ks _ hlog
      · intro _ c hc
        rcases List.mem_cons.mp hc with rfl | hlog
        · rfl
        · exact fetchLog_no_error ks c hlog
    · rw [getAllJokes_fetch_error client r pre k post e hkeys hpre hk]
      refine ⟨?_, ?_⟩
      · intro cmd e2 hmem
        rcases List.mem_cons.mp hmem with heq | hrest
        · cases heq
        · rcases List.mem_append.mp hrest with hlog | hlast
          · cases fetchLog_no_error pre _ hlog
          · simp only [List.mem_singleton, Prod.mk.injEq, Option.some.injEq] at hlast
            obtain ⟨_, rfl⟩ := hlast
            exact ⟨rfl, rfl, rfl, rfl⟩
      · intro hbody
        exact absurd jsonWriter_body hbody
  · rw [getAllJokes_keys_error client r e he]
    refine ⟨?_, ?_⟩
    · intro cmd e2 hmem
      simp only [List.mem_singleton, Prod.mk.injEq, Option.some.injEq] at hmem
      obtain ⟨_, rfl⟩ := hmem
      exact ⟨rfl, rfl, rfl, rfl⟩
    · intro hbody
      exact absurd jsonWriter_body hbody

/-- Random gives no partial result, whatever the store replies. -/
theorem getRandJoke_noPartial (client : Client) (r : Request) :
    (getRandJoke client r Exec.start).NoPartialResult := by
  rcases rand_cases client with ⟨k, hpick⟩ | ⟨e, he⟩
  · cases hk : client.getErr k with
    | none =>
      obtain ⟨v, hv⟩ := get_ok_of_getErr hk
      rw [getRandJoke_ok client r k v hpick hv]
      refine ⟨?_, ?_⟩
      · intro cmd e hmem
        simp at hmem
      · intro _ c hc
        simp only [List.mem_cons, List.mem_singleton, List.not_mem_nil, or_false] at hc
        rcases hc with rfl | rfl <;> rfl
    | some e =>
      rw [getRandJoke_fetch_error client r k e hpick hk]
      refine ⟨?_, ?_⟩
      · intro cmd e2 hmem
        simp only [List.mem_cons, List.mem_singleton, Prod.mk.injEq, List.not_mem_nil,
          or_false] at hmem
        rcases hmem with ⟨_, h2⟩ | ⟨_, h2⟩
        · cases h2
        · cases h2
          exact ⟨rfl, rfl, rfl, rfl⟩
      · intro hbody
        exact absurd jsonWriter_body hbody
  · rw [getRandJoke_pick_error client r e he]
    refine ⟨?_, ?_⟩
    · intro cmd e2 hmem
      simp only [List.mem_singleton, Prod.mk.injEq, Option.some.injEq] at hmem
      obtain ⟨_, rfl⟩ := hmem
      exact ⟨rfl, rfl, rfl, rfl⟩
    · intro hbody
      exact absurd jsonWriter_body hbody

/-- Every listed key of a store has a value. -/
theorem Store.value_of_mem_keys (s : Store) (k : String) (h : k ∈ s.keys) :
    ∃ v, s.value k = some v := by
  obtain ⟨entries⟩ := s
  simp only [Store.keys, List.mem_dedup, List.mem_map] at h
  obtain ⟨⟨a, b⟩, hmem, hk⟩ := h
  simp only at hk
  subst hk
  simp only [Store.value]
  induction entries with
  | nil => simp at hmem
  | cons hd tl ih =>
    obtain ⟨c, d⟩ := hd
    by_cases hca : a = c
    · subst hca
      exact ⟨d, by simp [List.lookup]⟩
    · rcases List.mem_cons.mp hmem with heq | htl
      · simp at heq; exact absurd heq.1 hca
      · obtain ⟨v, hv⟩ := ih htl
        refine ⟨v, ?_⟩
        have : (a == c) = false := by simpa using hca
        simp [List.lookup, this, hv]

/-- A working connection replies with a stored value only. -/
theorem Serves.value_of_get {client : Client} {s : Store} (hs : client.Serves s)
    (k v : String) (h : client.Get k = Reply.ok v) : s.value k = some v := by
  have h1 := hs.1 k
  rw [h] at h1
  cases hv : s.value k with
  | none => simp [hv] at h1
  | some v2 =>
    simp only [hv, Reply.ok.injEq] at h1
    rw [h1]

/-- A working connection picks a random key among the keys of the store. -/
theorem Serves.pick_mem_keys {client : Client} {s : Store} (hs : client.Serves s)
    (k : String) (h : client.RandomKey = Reply.ok k) : k ∈ s.keys := by
  by_cases hempty : s.keys = []
  · have := hs.2.2.1 hempty
    rw [h] at this
    cases this
  · obtain ⟨k2, hk2, hpick⟩ := hs.2.2.2 hempty
    rw [h] at hpick
    cases hpick
    exact hk2

/-- The client built from a store has a working connection to it. -/
theorem Store.client_serves (s : Store) (pick : Nat) : (s.client pick).Serves s := by
  refine ⟨fun key => rfl, ⟨s.keys, rfl, List.Perm.refl _⟩, ?_, ?_⟩
  · intro h
    simp [Store.client, h]
  · intro h
    have hlen : 0 < s.keys.length := List.length_pos.mpr h
    have hlt : pick % s.keys.length < s.keys.length := Nat.mod_lt _ hlen
    refine ⟨s.keys[pick % s.keys.length], List.getElem_mem _, ?_⟩
    simp [Store.client, List.getElem?_eq_getElem hlt]

/-! ## Get-by-id -/

/-- C1. Get-by-id hit: when the store replies to `GET id` with the stored value
`v`, the handler hands `Joke{id, v}` to the encoder, the body is exactly its
JSON encoding (the object with keys `id` and `joke`, followed by the newline
of the encoder), Content-Type is `application/json`, the handler returns, and
the status is the 200 sent by the first write: the handler leaves any status
already sent as it is and never sets one itself. -/
theorem getJokeByID_hit (client : Client) (r : Request) (id v : String)
    (hid : Vars r "id" = id) (hget : client.Get id = Reply.ok v) :
    (getJokeByID client r Exec.start).encoded = [Payload.joke ⟨id, v⟩] ∧
    (getJokeByID client r Exec.start).w.body = (Joke.mk id v).Marshal ++ "\n" ∧
    (getJokeByID client r Exec.start).w.body
      = "\x7b\"id\":" ++ quote id ++ ",\"joke\":" ++ quote v ++ "\x7d" ++ "\n" ∧
    (getJokeByID client r Exec.start).w.header = [("Content-Type", "application/json")] ∧
    (getJokeByID client r Exec.start).w.Get "Content-Type" = "application/json" ∧
    (getJokeByID client r Exec.start).w.status = some 200 ∧
    (getJokeByID client r Exec.start).outcome = Outcome.returned ∧
    (∀ x : Exec, (getJokeByID client r x).w.status = some (x.w.status.getD StatusOK)) := by
  subst hid
  simp [getJokeByID, Exec.Get, Exec.Set, Exec.Encode, Exec.start, hget, Reply.Result,
    ResponseWriter.Set, ResponseWriter.Write, ResponseWriter.fresh, ResponseWriter.Get,
    Payload.Marshal, Joke.Marshal, StatusOK, List.lookup]

/-- C1 at a concrete input: the store holds `knock <knock>` under key `1`. -/
theorem getJokeByID_hit_witness :
    Vars ⟨[("id", "1")]⟩ "id" = "1" ∧
    (twoJokes.client 0).Get "1" = Reply.ok "knock <knock>" ∧
    (getJokeByID (twoJokes.client 0) ⟨[("id", "1")]⟩ Exec.start).w.body
      = "\x7b\"id\":\"1\",\"joke\":\"knock \\u003cknock\\u003e\"\x7d\n" ∧
    (getJokeByID (twoJokes.client 0) ⟨[("id", "1")]⟩ Exec.start).w.status = some 200 :=
  ⟨rfl, rfl,
    (getJokeByID_hit (twoJokes.client 0) ⟨[("id", "1")]⟩ "1" "knock <knock>" rfl rfl).2.2.1,
    (getJokeByID_hit (twoJokes.client 0) ⟨[("id", "1")]⟩ "1" "knock <knock>" rfl rfl).2.2.2.2.2.1⟩

/-- C2. Get-by-id miss: when the store replies to `GET id` with nil
(`redis.Nil`), the handler hands the fixed record `NoJoke{"500", "Internal
Server Error", "Joke not availale"}` to the encoder, the body is its JSON
encoding, the same bytes for every id, the handler returns, and the status is
the 200 sent by the first write (the handler never sets a status itself). -/
theorem getJokeByID_miss (client : Client) (r : Request)
    (hget : client.Get (Vars r "id") = Reply.null) :
    (getJokeByID client r Exec.start).encoded
      = [Payload.noJoke ⟨"500", "Internal Server Error", "Joke not availale"⟩] ∧
    (getJokeByID client r Exec.start).w.body
      = (NoJoke.mk "500" "Internal Server Error" "Joke not availale").Marshal ++ "\n" ∧
    (getJokeByID client r Exec.start).w.body = noJokeBody ∧
    (getJokeByID client r Exec.start).w.header = [("Content-Type", "application/json")] ∧
    (getJokeByID client r Exec.start).w.status = some 200 ∧
    (getJokeByID client r Exec.start).outcome = Outcome.returned ∧
    (∀ x : Exec, (getJokeByID client r x).w.status = some (x.w.status.getD StatusOK)) := by
  have hbody : (NoJoke.mk "500" "Internal Server Error" "Joke not availale").Marshal ++ "\n"
      = noJokeBody := by decide
  simp [getJokeByID, Exec.Get, Exec.Set, Exec.Encode, Exec.start, hget, Reply.Result,
    ResponseWriter.Set, ResponseWriter.Write, ResponseWriter.fresh,
    Payload.Marshal, StatusOK, hbody]

/-- C2 at a concrete input: key `7` is not in the store. -/
theorem getJokeByID_miss_witness :
    (twoJokes.client 0).Get (Vars ⟨[("id", "7")]⟩ "id") = Reply.null ∧
    (getJokeByID (twoJokes.client 0) ⟨[("id", "7")]⟩ Exec.start).w.body
      = "\x7b\"status\":\"500\",\"error\":\"Internal Server Error\",\"message\":\"Joke not availale\"\x7d\n" ∧
    (getJokeByID (twoJokes.client 0) ⟨[("id", "7")]⟩ Exec.start).w.status = some 200 :=
  ⟨rfl, (getJokeByID_miss (twoJokes.client 0) ⟨[("id", "7")]⟩ rfl).2.2.1,
    (getJokeByID_miss (twoJokes.client 0) ⟨[("id", "7")]⟩ rfl).2.2.2.2.1⟩

/-- C10. Get-by-id swallows store failures: when `GET id` fails with an error
other than `redis.Nil`, the handler does not panic; it hands `Joke{id, ""}` to
the encoder (the empty string is the value returned alongside the error),
writes its encoding with status 200, and the response (header, status and
body) is the one written for a hit on a key whose stored value is the empty
string. -/
theorem getJokeByID_swallows_failure (client : Client) (r : Request) (id msg : String)
    (hid : Vars r "id" = id) (hget : client.Get id = Reply.failed msg) :
    (getJokeByID client r Exec.start).calls
      = [(Command.GET id, some (GoError.other msg))] ∧
    (getJokeByID client r Exec.start).outcome = Outcome.returned ∧
    (getJokeByID client r Exec.start).encoded = [Payload.joke ⟨id, ""⟩] ∧
    (getJokeByID client r Exec.start).w.body
      = "\x7b\"id\":" ++ quote id ++ ",\"joke\":\"\"\x7d\n" ∧
    (getJokeByID client r Exec.start).w.status = some 200 ∧
    (∀ hit : Client, hit.Get id = Reply.ok "" →
      (getJokeByID hit r Exec.start).w = (getJokeByID client r Exec.start).w) := by
  subst hid
  have hq : quote "" = "\"\"" := by decide
  have htail : ",\"joke\":" ++ ("\"\"" ++ ("\x7d" ++ "\n")) = ",\"joke\":\"\"\x7d\n" := by decide
  refine ⟨?_, ?_, ?_, ?_, ?_, ?_⟩
  all_goals try intro hit hhit
  all_goals
    simp [getJokeByID, Exec.Get, Exec.Set, Exec.Encode, Exec.start, hget, Reply.Result,
      ResponseWriter.Set, ResponseWriter.Write, ResponseWriter.fresh,
      Payload.Marshal, Joke.Marshal, StatusOK, hq, *]
  simp only [String.append_assoc, htail]

/-- C10 at a concrete input: the connection to the store is refused. -/
theorem getJokeByID_swallows_failure_witness :
    Vars ⟨[("id", "7")]⟩ "id" = "7" ∧
    (Client.down "connection refused").Get "7" = Reply.failed "connection refused" ∧
    (getJokeByID (Client.down "connection refused") ⟨[("id", "7")]⟩ Exec.start).outcome
      = Outcome.returned ∧
    (getJokeByID (Client.down "connection refused") ⟨[("id", "7")]⟩ Exec.start).w.body
      = "\x7b\"id\":\"7\",\"joke\":\"\"\x7d\n" :=
  ⟨rfl, rfl,
    (getJokeByID_swallows_failure (Client.down "connection refused") ⟨[("id", "7")]⟩ "7"
      "connection refused" rfl rfl).2.1,
    (getJokeByID_swallows_failure (Client.down "connection refused") ⟨[("id", "7")]⟩ "7"
      "connection refused" rfl rfl).2.2.2.1⟩

/-! ## List-all -/

/-- C3. List-all content: when `KEYS *` replies with the key sequence `ks` and
every `GET` on a listed key succeeds, the handler hands one slice of `Joke`
records to the encoder and writes its encoding; the slice has the length of
`ks`, its i-th element is `Joke{ks[i], value replied for ks[i]}`, and its ids
in order are `ks`. For a working connection to a store `s` the length is hence
the number of keys of `s`, the ids are exactly the keys of `s`, and every
record carries the value stored under its id. -/
theorem getAllJokes_content (client : Client) (r : Request) (ks : List String)
    (hkeys : client.Keys = Reply.ok ks) (hok : ∀ k ∈ ks, ∃ v, client.Get k = Reply.ok v) :
    ∃ jokes : Jokes,
      (getAllJokes client r Exec.start).encoded = [Payload.jokes jokes] ∧
      (getAllJokes client r Exec.start).w.body = Jokes.Marshal jokes ++ "\n" ∧
      (getAllJokes client r Exec.start).outcome = Outcome.returned ∧
      Jokes.len jokes = ks.length ∧
      (∀ (i : Nat) (h : i < ks.length) (v : String), client.Get ks[i] = Reply.ok v →
        (Jokes.elems jokes)[i]? = some ⟨ks[i], v⟩) ∧
      (Jokes.elems jokes).map Joke.Id = ks ∧
      (∀ s : Store, client.Serves s →
        Jokes.len jokes = s.keys.length ∧
        (∀ id, id ∈ (Jokes.elems jokes).map Joke.Id ↔ id ∈ s.keys) ∧
        (∀ j ∈ Jokes.elems jokes, s.value j.Id = some j.Joke)) := by
  have herr : ∀ k ∈ ks, client.getErr k = none := fun k hk =>
    let ⟨_, hv⟩ := hok k hk
    getErr_of_ok hv
  have helems : Jokes.elems (client.collect ks none) = ks.map client.fetched := by
    rw [collect_elems]
    simp [Jokes.elems]
  have hids : (ks.map client.fetched).map Joke.Id = ks := by
    simp [List.map_map, Function.comp_def, Client.fetched]
  refine ⟨client.collect ks none, ?_, ?_, ?_, ?_, ?_, ?_, ?_⟩
  · rw [getAllJokes_ok client r ks hkeys herr]
  · rw [getAllJokes_ok client r ks hkeys herr]
    exact written_body _
  · rw [getAllJokes_ok client r ks hkeys herr]
  · show (Jokes.elems (client.collect ks none)).length = ks.length
    rw [helems, List.length_map]
  · intro i h v hv
    rw [helems, List.getElem?_map, List.getElem?_eq_getElem h]
    simp [fetched_of_ok hv]
  · rw [helems, hids]
  · intro s hs
    obtain ⟨ks2, hks2, hperm⟩ := hs.2.1
    rw [hkeys] at hks2
    cases hks2
    refine ⟨?_, ?_, ?_⟩
    · show (Jokes.elems (client.collect ks none)).length = s.keys.length
      rw [helems, List.length_map]
      exact hperm.length_eq
    · intro id
      rw [helems, hids]
      exact hperm.mem_iff
    · intro j hj
      rw [helems] at hj
      obtain ⟨k, hk, rfl⟩ := List.mem_map.mp hj
      obtain ⟨v, hv⟩ := hok k hk
      rw [fetched_of_ok hv]
      exact Serves.value_of_get hs k v hv

/-- C3 at a concrete input: the store with keys `1` and `2`. -/
theorem getAllJokes_content_witness :
    (twoJokes.client 0).Keys = Reply.ok ["1", "2"] ∧
    ∃ jokes : Jokes,
      (getAllJokes (twoJokes.client 0) ⟨[]⟩ Exec.start).encoded = [Payload.jokes jokes] ∧
      Jokes.len jokes = 2 ∧ (Jokes.elems jokes).map Joke.Id = ["1", "2"] ∧
      Jokes.len jokes = twoJokes.keys.length ∧
      (∀ j ∈ Jokes.elems jokes, twoJokes.value j.Id = some j.Joke) :=
  ⟨by decide,
    let ⟨jokes, h⟩ := getAllJokes_content (twoJokes.client 0) ⟨[]⟩ ["1", "2"] (by decide)
      (by
        intro k hk
        simp only [List.mem_cons, List.mem_singleton, List.not_mem_nil, or_false] at hk
        rcases hk with rfl | rfl
        · exact ⟨"knock <knock>", rfl⟩
        · exact ⟨"b", rfl⟩)
    ⟨jokes, h.1, h.2.2.2.1, h.2.2.2.2.2.1,
      (h.2.2.2.2.2.2 twoJokes (Store.client_serves twoJokes 0)).1,
      (h.2.2.2.2.2.2 twoJokes (Store.client_serves twoJokes 0)).2.2⟩⟩

/-- C4 at the store with no keys: `KEYS *` replies with the empty array, the
loop body never runs, the slice handed to the encoder is still the nil slice
of `var jokes Jokes`, and the body is `null`, not the empty array `[]`. -/
theorem getAllJokes_empty_store_null :
    (Store.mk []).keys = [] ∧
    ((Store.mk []).client 0).Keys = Reply.ok [] ∧
    (getAllJokes ((Store.mk []).client 0) ⟨[]⟩ Exec.start).outcome = Outcome.returned ∧
    (getAllJokes ((Store.mk []).client 0) ⟨[]⟩ Exec.start).encoded = [Payload.jokes none] ∧
    (getAllJokes ((Store.mk []).client 0) ⟨[]⟩ Exec.start).w.body = "null\n" ∧
    (getAllJokes ((Store.mk []).client 0) ⟨[]⟩ Exec.start).w.body ≠ "[]\n" := by
  decide

/-! ## No partial results -/

/-- C5. No partial results on store failure: in list-all and in random, a store
call of the request that returned an error (the key listing, a per-key fetch,
the random-key pick or the value fetch; a nil reply counts) made the handler
panic with that error with no byte of body written, no status sent and nothing
encoded; a body is written only when every store call of the request returned
no error. The four failure points are spelled out after the two log
statements. -/
theorem no_partial_results (client : Client) (r : Request) :
    (getAllJokes client r Exec.start).NoPartialResult ∧
    (getRandJoke client r Exec.start).NoPartialResult ∧
    (∀ e, client.keysErr = some e →
      (getAllJokes client r Exec.start).outcome = Outcome.panicked e ∧
      (getAllJokes client r Exec.start).w.body = "") ∧
    (∀ pre k post e, client.Keys = Reply.ok (pre ++ k :: post) →
      (∀ k2 ∈ pre, client.getErr k2 = none) → client.getErr k = some e →
      (getAllJokes client r Exec.start).outcome = Outcome.panicked e ∧
      (getAllJokes client r Exec.start).w.body = "") ∧
    (∀ e, client.randErr = some e →
      (getRandJoke client r Exec.start).outcome = Outcome.panicked e ∧
      (getRandJoke client r Exec.start).w.body = "") ∧
    (∀ k e, client.RandomKey = Reply.ok k → client.getErr k = some e →
      (getRandJoke client r Exec.start).outcome = Outcome.panicked e ∧
      (getRandJoke client r Exec.start).w.body = "") ∧
    ((getAllJokes client r Exec.start).w.body ≠ "" →
      ∃ ks, client.Keys = Reply.ok ks ∧ ∀ k ∈ ks, ∃ v, client.Get k = Reply.ok v) ∧
    ((getRandJoke client r Exec.start).w.body ≠ "" →
      ∃ k v, client.RandomKey = Reply.ok k ∧ client.Get k = Reply.ok v) := by
  refine ⟨getAllJokes_noPartial client r, getRandJoke_noPartial client r, ?_, ?_, ?_, ?_, ?_, ?_⟩
  · intro e he
    rw [getAllJokes_keys_error client r e he]
    exact ⟨rfl, rfl⟩
  · intro pre k post e hkeys hpre hk
    rw [getAllJokes_fetch_error client r pre k post e hkeys hpre hk]
    exact ⟨rfl, rfl⟩
  · intro e he
    rw [getRandJoke_pick_error client r e he]
    exact ⟨rfl, rfl⟩
  · intro k e hpick hk
    rw [getRandJoke_fetch_error client r k e hpick hk]
    exact ⟨rfl, rfl⟩
  · intro hbody
    rcases keys_cases client with ⟨ks, hkeys⟩ | ⟨e, he⟩
    · rcases first_failure client ks with hall | ⟨pre, k, post, e, rfl, hpre, hk⟩
      · exact ⟨ks, hkeys, fun k hk => get_ok_of_getErr (hall k hk)⟩
      · rw [getAllJokes_fetch_error client r pre k post e hkeys hpre hk] at hbody
        exact absurd jsonWriter_body hbody
    · rw [getAllJokes_keys_error client r e he] at hbody
      exact absurd jsonWriter_body hbody
  · intro hbody
    rcases rand_cases client with ⟨k, hpick⟩ | ⟨e, he⟩
    · cases hk : client.getErr k with
      | none =>
        obtain ⟨v, hv⟩ := get_ok_of_getErr hk
        exact ⟨k, v, hpick, hv⟩
      | some e =>
        rw [getRandJoke_fetch_error client r k e hpick hk] at hbody
        exact absurd jsonWriter_body hbody
    · rw [getRandJoke_pick_error client r e he] at hbody
      exact absurd jsonWriter_body hbody

/-- C5 at concrete inputs: with the connection down both handlers panic with
the connection error and write nothing; when key `2` holds a list, list-all
panics with the error of `GET 2` after the fetch of key `1` succeeded and
writes nothing; on the empty store random panics with `redis.Nil` and writes
nothing. -/
theorem no_partial_results_witness :
    (getAllJokes (Client.down "connection refused") ⟨[]⟩ Exec.start).outcome
      = Outcome.panicked (GoError.other "connection refused") ∧
    (getAllJokes (Client.down "connection refused") ⟨[]⟩ Exec.start).w.body = "" ∧
    (getRandJoke (Client.down "connection refused") ⟨[]⟩ Exec.start).outcome
      = Outcome.panicked (GoError.other "connection refused") ∧
    (getRandJoke (Client.down "connection refused") ⟨[]⟩ Exec.start).w.body = "" ∧
    (getAllJokes listUnderKey ⟨[]⟩ Exec.start).outcome
      = Outcome.panicked (GoError.other "WRONGTYPE") ∧
    (getAllJokes listUnderKey ⟨[]⟩ Exec.start).w.body = "" ∧
    (getRandJoke ((Store.mk []).client 0) ⟨[]⟩ Exec.start).outcome
      = Outcome.panicked GoError.Nil ∧
    (getRandJoke ((Store.mk []).client 0) ⟨[]⟩ Exec.start).w.body = "" :=
  ⟨((no_partial_results (Client.down "connection refused") ⟨[]⟩).2.2.1
      (GoError.other "connection refused") rfl).1,
    ((no_partial_results (Client.down "connection refused") ⟨[]⟩).2.2.1
      (GoError.other "connection refused") rfl).2,
    ((no_partial_results (Client.down "connection refused") ⟨[]⟩).2.2.2.2.1
      (GoError.other "connection refused") rfl).1,
    ((no_partial_results (Client.down "connection refused") ⟨[]⟩).2.2.2.2.1
      (GoError.other "connection refused") rfl).2,
    ((no_partial_results listUnderKey ⟨[]⟩).2.2.2.1 ["1"] "2" [] (GoError.other "WRONGTYPE") rfl
      (by decide) (by decide)).1,
    ((no_partial_results listUnderKey ⟨[]⟩).2.2.2.1 ["1"] "2" [] (GoError.other "WRONGTYPE") rfl
      (by decide) (by decide)).2,
    ((no_partial_results ((Store.mk []).client 0) ⟨[]⟩).2.2.2.2.1 GoError.Nil rfl).1,
    ((no_partial_results ((Store.mk []).client 0) ⟨[]⟩).2.2.2.2.1 GoError.Nil rfl).2⟩

/-! ## Random -/

/-- C6. Random handler result: when `RANDOMKEY` replies with the key `k` and
`GET k` with the value `v`, the handler hands `Joke{k, v}` to the encoder and
the body is exactly its JSON encoding, with Content-Type `application/json`
and status 200. Whenever the handler writes a body, both calls succeeded and
the body is the encoding of such a record; for a working connection to a store
`s` the id in it is one of the keys of `s` and the joke is the value stored
under that key. -/
theorem getRandJoke_result (client : Client) (r : Request) :
    (∀ k v, client.RandomKey = Reply.ok k → client.Get k = Reply.ok v →
      (getRandJoke client r Exec.start).encoded = [Payload.joke ⟨k, v⟩] ∧
      (getRandJoke client r Exec.start).w.body = (Joke.mk k v).Marshal ++ "\n" ∧
      (getRandJoke client r Exec.start).w.body
        = "\x7b\"id\":" ++ quote k ++ ",\"joke\":" ++ quote v ++ "\x7d" ++ "\n" ∧
      (getRandJoke client r Exec.start).w.header = [("Content-Type", "application/json")] ∧
      (getRandJoke client r Exec.start).w.status = some 200 ∧
      (getRandJoke client r Exec.start).outcome = Outcome.returned) ∧
    ((getRandJoke client r Exec.start).w.body ≠ "" →
      ∃ k v, client.RandomKey = Reply.ok k ∧ client.Get k = Reply.ok v ∧
        (getRandJoke client r Exec.start).encoded = [Payload.joke ⟨k, v⟩] ∧
        (getRandJoke client r Exec.start).w.body = (Joke.mk k v).Marshal ++ "\n") ∧
    (∀ s : Store, client.Serves s → (getRandJoke client r Exec.start).w.body ≠ "" →
      ∃ k v, k ∈ s.keys ∧ s.value k = some v ∧
        (getRandJoke client r Exec.start).encoded = [Payload.joke ⟨k, v⟩] ∧
        (getRandJoke client r Exec.start).w.body = (Joke.mk k v).Marshal ++ "\n") := by
  have hwritten : (getRandJoke client r Exec.start).w.body ≠ "" →
      ∃ k v, client.RandomKey = Reply.ok k ∧ client.Get k = Reply.ok v := by
    intro hbody
    rcases rand_cases client with ⟨k, hpick⟩ | ⟨e, he⟩
    · cases hk : client.getErr k with
      | none =>
        obtain ⟨v, hv⟩ := get_ok_of_getErr hk
        exact ⟨k, v, hpick, hv⟩
      | some e =>
        rw [getRandJoke_fetch_error client r k e hpick hk] at hbody
        exact absurd jsonWriter_body hbody
    · rw [getRandJoke_pick_error client r e he] at hbody
      exact absurd jsonWriter_body hbody
  refine ⟨?_, ?_, ?_⟩
  · intro k v hpick hget
    rw [getRandJoke_ok client r k v hpick hget]
    simp [ResponseWriter.Write, jsonWriter, StatusOK, Joke.Marshal]
  · intro hbody
    obtain ⟨k, v, hpick, hget⟩ := hwritten hbody
    refine ⟨k, v, hpick, hget, ?_, ?_⟩
    · rw [getRandJoke_ok client r k v hpick hget]
    · rw [getRandJoke_ok client r k v hpick hget]
      exact written_body _
  · intro s hs hbody
    obtain ⟨k, v, hpick, hget⟩ := hwritten hbody
    refine ⟨k, v, Serves.pick_mem_keys hs k hpick, Serves.value_of_get hs k v hget, ?_, ?_⟩
    · rw [getRandJoke_ok client r k v hpick hget]
    · rw [getRandJoke_ok client r k v hpick hget]
      exact written_body _

/-- C6 at a concrete input: the pick 3 selects key `2` of the two-joke store. -/
theorem getRandJoke_result_witness :
    (twoJokes.client 3).RandomKey = Reply.ok "2" ∧
    (twoJokes.client 3).Get "2" = Reply.ok "b" ∧
    (getRandJoke (twoJokes.client 3) ⟨[]⟩ Exec.start).w.body
      = "\x7b\"id\":\"2\",\"joke\":\"b\"\x7d\n" ∧
    (getRandJoke (twoJokes.client 3) ⟨[]⟩ Exec.start).w.status = some 200 ∧
    (∃ k v, k ∈ twoJokes.keys ∧ twoJokes.value k = some v ∧
      (getRandJoke (twoJokes.client 3) ⟨[]⟩ Exec.start).encoded = [Payload.joke ⟨k, v⟩] ∧
      (getRandJoke (twoJokes.client 3) ⟨[]⟩ Exec.start).w.body = (Joke.mk k v).Marshal ++ "\n") :=
  ⟨by decide, by decide,
    ((getRandJoke_result (twoJokes.client 3) ⟨[]⟩).1 "2" "b" (by decide) (by decide)).2.2.1,
    ((getRandJoke_result (twoJokes.client 3) ⟨[]⟩).1 "2" "b" (by decide) (by decide)).2.2.2.2.1,
    (getRandJoke_result (twoJokes.client 3) ⟨[]⟩).2.2 twoJokes (Store.client_serves twoJokes 3)
      (by decide)⟩

/-! ## Store operations per handler -/

/-- C7 as stated fails: on the two-joke store the index handler issues no store
command, list-all issues three (`KEYS *` and one `GET` per key) and random
issues two (`RANDOMKEY` and `GET`); none of the three counts is one. -/
theorem one_store_operation_counterexample :
    (indexHandler (fun _ => Except.ok "<html></html>") ⟨[]⟩ Exec.start).calls = [] ∧
    (getAllJokes (twoJokes.client 0) ⟨[]⟩ Exec.start).calls
      = [(Command.KEYS "*", none), (Command.GET "1", none), (Command.GET "2", none)] ∧
    (getRandJoke (twoJokes.client 0) ⟨[]⟩ Exec.start).calls
      = [(Command.RANDOMKEY, none), (Command.GET "1", none)] ∧
    (indexHandler (fun _ => Except.ok "<html></html>") ⟨[]⟩ Exec.start).calls.length ≠ 1 ∧
    (getAllJokes (twoJokes.client 0) ⟨[]⟩ Exec.start).calls.length ≠ 1 ∧
    (getRandJoke (twoJokes.client 0) ⟨[]⟩ Exec.start).calls.length ≠ 1 := by
  decide

/-- C7 amended. Store operations per handler: get-by-id issues exactly one
store command, the `GET` of the requested id; the index handler issues none;
list-all issues `KEYS *` and then one `GET` per listed key up to and including
the first that fails (one command when the listing fails, one plus the number
of keys when every call succeeds); random issues `RANDOMKEY` and, when that
succeeds, one `GET` of the picked key (two commands). -/
theorem store_operations_per_handler (client : Client)
    (ParseFiles : String → Except GoError String) (r : Request) :
    (indexHandler ParseFiles r Exec.start).calls = [] ∧
    (getJokeByID client r Exec.start).calls
      = [(Command.GET (Vars r "id"), client.getErr (Vars r "id"))] ∧
    (getJokeByID client r Exec.start).calls.length = 1 ∧
    (∀ e, client.keysErr = some e →
      (getAllJokes client r Exec.start).calls = [(Command.KEYS "*", some e)]) ∧
    (∀ ks, client.Keys = Reply.ok ks → (∀ k ∈ ks, client.getErr k = none) →
      (getAllJokes client r Exec.start).calls = (Command.KEYS "*", none) :: fetchLog ks ∧
      (getAllJokes client r Exec.start).calls.length = 1 + ks.length) ∧
    (∀ pre k post e, client.Keys = Reply.ok (pre ++ k :: post) →
      (∀ k2 ∈ pre, client.getErr k2 = none) → client.getErr k = some e →
      (getAllJokes client r Exec.start).calls
        = (Command.KEYS "*", none) :: (fetchLog pre ++ [(Command.GET k, some e)]) ∧
      (getAllJokes client r Exec.start).calls.length = 1 + (pre.length + 1)) ∧
    (∀ e, client.randErr = some e →
      (getRandJoke client r Exec.start).calls = [(Command.RANDOMKEY, some e)]) ∧
    (∀ k, client.RandomKey = Reply.ok k →
      (getRandJoke client r Exec.start).calls
        = [(Command.RANDOMKEY, none), (Command.GET k, client.getErr k)] ∧
      (getRandJoke client r Exec.start).calls.length = 2) := by
  have hbyid : (getJokeByID client r Exec.start).calls
      = [(Command.GET (Vars r "id"), client.getErr (Vars r "id"))] := by
    simp only [getJokeByID, Exec.Get, Exec.Set, Exec.Encode, Exec.start, Client.getErr]
    split <;> rfl
  refine ⟨?_, hbyid, by rw [hbyid]; rfl, ?_, ?_, ?_, ?_, ?_⟩
  · simp only [indexHandler, Exec.start, Exec.Set]
    split <;> rfl
  · intro e he
    rw [getAllJokes_keys_error client r e he]
  · intro ks hkeys hall
    rw [getAllJokes_ok client r ks hkeys hall]
    simp [fetchLog, Nat.add_comm]
  · intro pre k post e hkeys hpre hk
    rw [getAllJokes_fetch_error client r pre k post e hkeys hpre hk]
    simp [fetchLog, Nat.add_comm]
  · intro e he
    rw [getRandJoke_pick_error client r e he]
  · intro k hpick
    cases hk : client.getErr k with
    | none =>
      obtain ⟨v, hv⟩ := get_ok_of_getErr hk
      rw [getRandJoke_ok client r k v hpick hv]
      exact ⟨rfl, rfl⟩
    | some e =>
      rw [getRandJoke_fetch_error client r k e hpick hk]
      exact ⟨rfl, rfl⟩

/-! ## Configuration -/

/-- C8. Configuration defaults: `getEnv` returns the value of the variable when
it is set to a non-empty string, and the default when it is unset or set to
the empty string; with `REDIS_HOST`, `REDIS_PORT` and `REDIS_PASSWORD` unset,
`main` creates the store client with address `localhost:6379`, the empty
password and database 0. -/
theorem getEnv_defaults (env : Environ) (key defaultValue : String) :
    (∀ v, env key = some v → v ≠ "" → getEnv env key defaultValue = v) ∧
    (env key = none → getEnv env key defaultValue = defaultValue) ∧
    (env key = some "" → getEnv env key defaultValue = defaultValue) ∧
    (∀ Ping, env "REDIS_HOST" = none → env "REDIS_PORT" = none →
      env "REDIS_PASSWORD" = none →
      (main env Ping).options = { Addr := "localhost:6379", Password := "", DB := 0 }) := by
  refine ⟨?_, ?_, ?_, ?_⟩
  · intro v hv hne
    simp [getEnv, Getenv, hv, hne]
  · intro h
    simp [getEnv, Getenv, h]
  · intro h
    simp [getEnv, Getenv, h]
  · intro Ping hh hp hw
    have haddr : "localhost" ++ ":" ++ "6379" = "localhost:6379" := by decide
    simp [main, getEnv, Getenv, hh, hp, hw, haddr]

/-! ## The error record -/

/-- C9. The `NoJoke` record is built only when a lookup misses: get-by-id hands
a `NoJoke` to the encoder, and writes its body, exactly when the store replies
to its `GET` with nil (`redis.Nil`), so neither on a hit nor on another store
error; list-all, random and the index handler never hand a `NoJoke` to the
encoder, and list-all and random never write its body. -/
theorem noJoke_only_on_miss (client : Client)
    (ParseFiles : String → Except GoError String) (r : Request) :
    ((∃ n, Payload.noJoke n ∈ (getJokeByID client r Exec.start).encoded)
      ↔ client.Get (Vars r "id") = Reply.null) ∧
    ((getJokeByID client r Exec.start).w.body = noJokeBody
      ↔ client.Get (Vars r "id") = Reply.null) ∧
    (∀ n, Payload.noJoke n ∉ (getAllJokes client r Exec.start).encoded) ∧
    (getAllJokes client r Exec.start).w.body ≠ noJokeBody ∧
    (∀ n, Payload.noJoke n ∉ (getRandJoke client r Exec.start).encoded) ∧
    (getRandJoke client r Exec.start).w.body ≠ noJokeBody ∧
    (∀ n, Payload.noJoke n ∉ (indexHandler ParseFiles r Exec.start).encoded) := by
  have hempty : ("" : String) ≠ noJokeBody := by decide
  have hnj : (NoJoke.mk "500" "Internal Server Error" "Joke not availale").Marshal ++ "\n"
      = noJokeBody := by decide
  refine ⟨?_, ?_, ?_, ?_, ?_, ?_, ?_⟩
  · cases hg : client.Get (Vars r "id") <;>
      simp [getJokeByID, Exec.Get, Exec.Set, Exec.Encode, Exec.start, hg, Reply.Result]
  · cases hg : client.Get (Vars r "id") with
    | ok v =>
      have := joke_body_ne ⟨Vars r "id", v⟩
      simpa [getJokeByID, Exec.Get, Exec.Set, Exec.Encode, Exec.start, hg, Reply.Result,
        ResponseWriter.Set, ResponseWriter.Write, ResponseWriter.fresh, Payload.Marshal]
        using this
    | null =>
      simp [getJokeByID, Exec.Get, Exec.Set, Exec.Encode, Exec.start, hg, Reply.Result,
        ResponseWriter.Set, ResponseWriter.Write, ResponseWriter.fresh, Payload.Marshal, hnj]
    | failed msg =>
      have := joke_body_ne ⟨Vars r "id", ""⟩
      simpa [getJokeByID, Exec.Get, Exec.Set, Exec.Encode, Exec.start, hg, Reply.Result,
        ResponseWriter.Set, ResponseWriter.Write, ResponseWriter.fresh, Payload.Marshal]
        using this
  · intro n
    rcases keys_cases client with ⟨ks, hkeys⟩ | ⟨e, he⟩
    · rcases first_failure client ks with hall | ⟨pre, k, post, e, rfl, hpre, hk⟩
      · rw [getAllJokes_ok client r ks hkeys hall]
        simp
      · rw [getAllJokes_fetch_error client r pre k post e hkeys hpre hk]
        simp
    · rw [getAllJokes_keys_error client r e he]
      simp
  · rcases keys_cases client with ⟨ks, hkeys⟩ | ⟨e, he⟩
    · rcases first_failure client ks with hall | ⟨pre, k, post, e, rfl, hpre, hk⟩
      · rw [getAllJokes_ok client r ks hkeys hall, written_body]
        exact jokes_body_ne _
      · rw [getAllJokes_fetch_error client r pre k post e hkeys hpre hk]
        exact hempty
    · rw [getAllJokes_keys_error client r e he]
      exact hempty
  · intro n
    rcases rand_cases client with ⟨k, hpick⟩ | ⟨e, he⟩
    · cases hk : client.getErr k with
      | none =>
        obtain ⟨v, hv⟩ := get_ok_of_getErr hk
        rw [getRandJoke_ok client r k v hpick hv]
        simp
      | some e =>
        rw [getRandJoke_fetch_error client r k e hpick hk]
        simp
    · rw [getRandJoke_pick_error client r e he]
      simp
  · rcases rand_cases client with ⟨k, hpick⟩ | ⟨e, he⟩
    · cases hk : client.getErr k with
      | none =>
        obtain ⟨v, hv⟩ := get_ok_of_getErr hk
        rw [getRandJoke_ok client r k v hpick hv, written_body]
        exact joke_body_ne _
      | some e =>
        rw [getRandJoke_fetch_error client r k e hpick hk]
        exact hempty
    · rw [getRandJoke_pick_error client r e he]
      exact hempty
  · intro n
    simp only [indexHandler, Exec.start, Exec.Set]
    split <;> simp

/-! ## Further properties -/

/-- X1. Index handler: when `index.html` parses, the handler sets Content-Type
`text/html`, writes the rendered template with status 200, issues no store
command and returns; when it does not parse, the process exits through
`log.Fatal` with the parse error and nothing is set or written. -/
theorem indexHandler_response (ParseFiles : String → Except GoError String) (r : Request) :
    (∀ tmpl, ParseFiles "index.html" = Except.ok tmpl →
      indexHandler ParseFiles r Exec.start
        = { w := { header := [("Content-Type", "text/html")], status := some 200, body := tmpl },
            calls := [], encoded := [], outcome := Outcome.returned }) ∧
    (∀ err, ParseFiles "index.html" = Except.error err →
      indexHandler ParseFiles r Exec.start
        = { w := ResponseWriter.fresh, calls := [], encoded := [],
            outcome := Outcome.exited err }) := by
  refine ⟨?_, ?_⟩
  · intro tmpl h
    simp [indexHandler, h, Exec.Set, Exec.start, ResponseWriter.Set, ResponseWriter.Write,
      ResponseWriter.fresh, StatusOK]
  · intro err h
    simp [indexHandler, h, Exec.start]

/-- X2. Get-by-id always answers: whatever the store replies, the handler
returns without panicking, with Content-Type `application/json` and status 200,
after encoding exactly one value: the fixed `NoJoke` record, or a `Joke` whose
id is the requested one. -/
theorem getJokeByID_always_returns (client : Client) (r : Request) :
    (getJokeByID client r Exec.start).outcome = Outcome.returned ∧
    (getJokeByID client r Exec.start).w.status = some 200 ∧
    (getJokeByID client r Exec.start).w.header = [("Content-Type", "application/json")] ∧
    ((getJokeByID client r Exec.start).encoded
        = [Payload.noJoke ⟨"500", "Internal Server Error", "Joke not availale"⟩] ∨
      ∃ v, (getJokeByID client r Exec.start).encoded = [Payload.joke ⟨Vars r "id", v⟩]) := by
  cases hg : client.Get (Vars r "id") <;>
    simp [getJokeByID, Exec.Get, Exec.Set, Exec.Encode, Exec.start, hg, Reply.Result,
      ResponseWriter.Set, ResponseWriter.Write, ResponseWriter.fresh, StatusOK]

end JokesApi
